import Mathlib

/-!
Verification of the chef-anti-inflatie frontend (src/frontend/app/page.tsx and
page_backup.tsx) together with spec-modelled parts of the backend core
(offer store, normalizer, scheduler, recipe synthesizer, cost matcher),
whose Python sources are not part of this snapshot.

Prices are modelled as rationals, timestamps as naturals.
-/

namespace Chef

/-- Ingredient, as declared in page.tsx lines 5-10. -/
structure Ingredient where
  name : String
  quantity : String
  price : ℚ
  from_offer : Bool
deriving DecidableEq

/-- Offer, as declared in page.tsx lines 12-21 (no valid_until field). -/
structure Offer where
  id : String
  name : String
  old_price : ℚ
  new_price : ℚ
  discount_percentage : Int
  store : String
  category : String
  image_url : String
deriving DecidableEq

/-- Nutrition block of Recipe, page.tsx lines 36-42. -/
structure Nutrition where
  calories : ℚ
  protein : ℚ
  carbs : ℚ
  fat : ℚ
  fiber : Option ℚ
deriving DecidableEq

/-- Recipe, as declared in page.tsx lines 23-46. -/
structure Recipe where
  id : Nat
  name : String
  description : String
  prep_time : String
  cook_time : Option String
  servings : Nat
  estimated_cost : ℚ
  cost_per_serving : Option ℚ
  difficulty : Option String
  ingredients : List Ingredient
  instructions : List String
  image_url : String
  nutrition : Nutrition
  tags : Option (List String)
  tips : Option String
  generated_at : Option String
deriving DecidableEq

/-- Stats block of DashboardData, page.tsx lines 52-57. -/
structure DashboardStats where
  total_offers : Nat
  total_potential_savings : ℚ
  categories : List (String × Nat)
  recipes_updated : Option String
deriving DecidableEq

/-- DashboardData, page.tsx lines 48-58. -/
structure DashboardData where
  offers : List Offer
  top_recipes : List Recipe
  cheapest_recipes : List Recipe
  stats : DashboardStats
deriving DecidableEq

/-- The three values of the activeView state, page.tsx line 83. -/
inductive View where
  | home
  | select
  | results
deriving DecidableEq

/-- The component state of the Home component, page.tsx lines 76-84. -/
structure FrontendState where
  data : Option DashboardData
  loading : Bool
  error : Option String
  selectedRecipe : Option Recipe
  selectedProducts : List String
  customRecipes : List Recipe
  generating : Bool
  activeView : View
  categoryFilter : String
deriving DecidableEq

/-- Outcome of the POST to /api/recipes/generate as seen by the handler:
either a failure (non-ok HTTP status or a thrown error) or a parsed JSON
body whose recipes field may be absent. -/
inductive ApiResult where
  | failure
  | success (recipes : Option (List Recipe))
deriving DecidableEq

/-- The generateRecipes handler, page.tsx lines 104-124.  Returns the state
after the handler finishes together with the request body it sent
(none when no network request was made; the body is the product_ids list). -/
def generateRecipes (s : FrontendState) (resp : ApiResult) :
    FrontendState × Option (List String) :=
  if s.selectedProducts.length = 0 then (s, none)
  else
    match resp with
    | .failure => ({ s with generating := false }, some s.selectedProducts)
    | .success recipes =>
        ({ s with customRecipes := recipes.getD [],
                  activeView := View.results,
                  generating := false },
         some s.selectedProducts)

/-- The toggleProduct updater, page.tsx lines 126-130: prev.includes(id)
selects between removing every occurrence and appending. -/
def toggleProduct (id : String) (prev : List String) : List String :=
  if id ∈ prev then prev.filter (fun p => p ≠ id) else prev ++ [id]

/-- Result shape of the selectedTotal memo. -/
structure SelectedTotal where
  count : Nat
  total : ℚ
  savings : ℚ
deriving DecidableEq

/-- The selectedTotal memo, page.tsx lines 132-140. -/
def selectedTotal (offers : Option (List Offer)) (selectedProducts : List String) :
    SelectedTotal :=
  match offers with
  | none => ⟨0, 0, 0⟩
  | some os =>
      let selected := os.filter (fun o => selectedProducts.contains o.id)
      ⟨selected.length,
       selected.foldl (fun sum o => sum + o.new_price) 0,
       selected.foldl (fun sum o => sum + (o.old_price - o.new_price)) 0⟩

/-- The filteredOffers memo, page.tsx lines 142-146. -/
def filteredOffers (offers : Option (List Offer)) (categoryFilter : String) :
    List Offer :=
  match offers with
  | none => []
  | some os =>
      if categoryFilter = "all" then os
      else os.filter (fun o => o.category = categoryFilter)

/-! Field-name transcriptions of the TypeScript interfaces and of the field
accesses the two pages perform on the dashboard response.  These make claims
about payload shape decidable. -/

/-- Field names of the Offer interface in page.tsx lines 12-21. -/
def pageOfferFields : List String :=
  ["id", "name", "old_price", "new_price", "discount_percentage",
   "store", "category", "image_url"]

/-- Field names of the Offer interface in page_backup.tsx lines 12-22. -/
def pageBackupOfferFields : List String :=
  ["id", "name", "old_price", "new_price", "discount_percentage",
   "store", "category", "image_url", "valid_until"]

/-- Field names of the DashboardData interface in page.tsx lines 48-58. -/
def pageDashboardFields : List String :=
  ["offers", "top_recipes", "cheapest_recipes", "stats"]

/-- Field names of the stats block of DashboardData in page.tsx lines 52-57. -/
def pageStatsFields : List String :=
  ["total_offers", "total_potential_savings", "categories", "recipes_updated"]

/-- Top-level fields page.tsx reads off the dashboard response object
(data.offers, data.top_recipes, data.cheapest_recipes, data.stats). -/
def pageDashboardReads : List String :=
  ["offers", "top_recipes", "cheapest_recipes", "stats"]

/-- Fields page.tsx reads off data.stats. -/
def pageStatsReads : List String :=
  ["total_offers", "total_potential_savings", "categories", "recipes_updated"]

/-- Field names of the DashboardData interface in page_backup.tsx lines 47-56. -/
def pageBackupDashboardFields : List String :=
  ["offers", "recipes", "stats"]

/-- Field names of the stats block in page_backup.tsx lines 50-55. -/
def pageBackupStatsFields : List String :=
  ["total_offers", "total_recipes", "total_potential_savings", "stores"]

/-- Top-level fields page_backup.tsx reads off the dashboard response object
(data.recipes at line 152, data.stats at lines 166-195, data.offers at 280). -/
def pageBackupDashboardReads : List String :=
  ["recipes", "stats", "offers"]

/-! Spec-modelled backend core.  The Python backend (main.py,
scraper_service.py, ai_chef.py) is not part of this snapshot; the
definitions below follow the specification text. -/

/-- Modelled from the spec: the backend store-level Offer entity (spec section 3);
unlike the frontend Offer of page.tsx it carries a valid_until expiry
timestamp. -/
structure StoreOffer where
  id : String
  name : String
  old_price : ℚ
  new_price : ℚ
  discount_percentage : Int
  store : String
  category : String
  image_url : String
  valid_until : Nat
deriving DecidableEq

/-- Modelled from the spec: the raw per-source record emitted by a Fetcher
adapter (spec section 4.1). -/
structure RawRecord where
  name : String
  old_price : ℚ
  new_price : ℚ
  category_hint : String
  image : String
  valid_until_hint : Option Nat
deriving DecidableEq

/-- Modelled from the spec: stable id derivation over source, product name and
observation date (spec section 4.2); the hash is modelled as concatenation,
which is likewise deterministic and injective on its inputs. -/
def deriveId (source name : String) (obsDate : Nat) : String :=
  source ++ ":" ++ name ++ ":" ++ toString obsDate

/-- Modelled from the spec: valid_until defaulting when the source supplies no
hint (spec section 4.2, end of current sale cycle); modelled as one week. -/
def defaultValidUntil (now : Nat) : Nat :=
  now + 7 * 86400

/-- Modelled from the spec: category assignment with fallback to the Other
bucket (spec section 4.2). -/
def assignCategory (hint : String) : String :=
  if hint = "" then "Other" else hint

/-- Modelled from the spec: normalization of one raw record (spec section 4.2):
drop any record with old_price at most 0 or new_price above old_price,
recompute the discount percentage by the section 3 formula, derive the id and
default valid_until. -/
def normalizeRecord (source : String) (now : Nat) (r : RawRecord) :
    Option StoreOffer :=
  if r.old_price ≤ 0 ∨ r.old_price < r.new_price then none
  else some
    { id := deriveId source r.name now
      name := r.name
      old_price := r.old_price
      new_price := r.new_price
      discount_percentage := round ((r.old_price - r.new_price) / r.old_price * 100)
      store := source
      category := assignCategory r.category_hint
      image_url := r.image
      valid_until := r.valid_until_hint.getD (defaultValidUntil now) }

/-- Modelled from the spec: normalize(source, raw records) (spec section 4.2). -/
def normalize (source : String) (now : Nat) (raws : List RawRecord) :
    List StoreOffer :=
  raws.filterMap (normalizeRecord source now)

/-- Modelled from the spec: upsert of a single offer into the store (spec
section 4.3): replace the entry with the same id when present, otherwise
append, never disturbing entries with other ids. -/
def upsertOne (s : List StoreOffer) (o : StoreOffer) : List StoreOffer :=
  if s.any (fun x => x.id = o.id) then s.map (fun x => if x.id = o.id then o else x)
  else s ++ [o]

/-- Modelled from the spec: Store.upsert(offers) (spec section 4.3). -/
def upsert (s : List StoreOffer) (offers : List StoreOffer) : List StoreOffer :=
  offers.foldl upsertOne s

/-- Modelled from the spec: getOffers() returns live, non-expired offers only
(spec section 6): every surfaced offer has valid_until in the future. -/
def getOffers (s : List StoreOffer) (now : Nat) : List StoreOffer :=
  s.filter (fun o => now < o.valid_until)

/-- Modelled from the spec: sweepExpired() removes offers whose valid_until has
passed and reports how many were removed (spec section 4.3). -/
def sweepExpired (s : List StoreOffer) (now : Nat) : List StoreOffer × Nat :=
  (s.filter (fun o => now < o.valid_until),
   s.countP (fun o => ¬ now < o.valid_until))

/-- Stores reachable from empty through refresh cycles (normalize then upsert)
and expiry sweeps, the only writers the spec allows (spec sections 3 and 4.3). -/
inductive ReachableStore : List StoreOffer → Prop where
  | empty : ReachableStore []
  | refresh (s : List StoreOffer) (source : String) (now : Nat)
      (raws : List RawRecord) :
      ReachableStore s → ReachableStore (upsert s (normalize source now raws))
  | sweep (s : List StoreOffer) (now : Nat) :
      ReachableStore s → ReachableStore (sweepExpired s now).1

/-- The section 3 invariant on a single offer. -/
def offerInvariant (o : StoreOffer) : Prop :=
  o.new_price ≤ o.old_price ∧
  o.discount_percentage =
    round ((o.old_price - o.new_price) / o.old_price * 100)

/-- Modelled from the spec: the Scheduler context (spec sections 4.4 and
design notes): the refresh-in-progress flag plus a count of started cycles. -/
structure SchedulerState where
  refreshing : Bool
  startedCycles : Nat
deriving DecidableEq

/-- Modelled from the spec: refresh() (spec sections 4.4 and 6): when a cycle
is in progress the trigger coalesces into a no-op reporting triggered false;
otherwise a new cycle starts and the call reports triggered true. -/
def refresh (s : SchedulerState) : SchedulerState × Bool :=
  if s.refreshing then (s, false)
  else ({ refreshing := true, startedCycles := s.startedCycles + 1 }, true)

/-- Boolean test that the first character list starts the second. -/
def startsWith : List Char → List Char → Bool
  | [], _ => true
  | _ :: _, [] => false
  | a :: as, b :: bs => a = b && startsWith as bs

/-- Boolean substring test on character lists. -/
def containsSub (needle : List Char) : List Char → Bool
  | [] => needle.isEmpty
  | c :: rest => startsWith needle (c :: rest) || containsSub needle rest

/-- Modelled from the spec: fixed market-price fallback when an ingredient
matches no live offer (spec section 4.6, documented constant). -/
def fallbackPrice : ℚ := 5

/-- Modelled from the spec: case-insensitive substring match of an ingredient
name against a live offer name (spec section 4.6); parsed ingredients carry no
category, so the category is unspecified and every live offer is eligible. -/
def ingMatches (now : Nat) (ingName : String) (o : StoreOffer) : Bool :=
  decide (now < o.valid_until) &&
    (containsSub o.name.toLower.toList ingName.toLower.toList ||
     containsSub ingName.toLower.toList o.name.toLower.toList)

/-- Modelled from the spec: an ingredient as parsed out of the model response,
before pricing: a name and a free-form quantity. -/
structure ParsedIngredient where
  name : String
  quantity : String
deriving DecidableEq

/-- Modelled from the spec: a recipe as parsed out of the model response (all
required fields present, prices not yet resolved). -/
structure ParsedRecipe where
  name : String
  description : String
  prep_time : String
  cook_time : Option String
  servings : Nat
  difficulty : Option String
  ingredients : List ParsedIngredient
  instructions : List String
  nutrition : Nutrition
  tags : Option (List String)
  tips : Option String
deriving DecidableEq

/-- Modelled from the spec: pricing one ingredient (spec section 4.6): on a
match against a live offer take new_price with from_offer true, otherwise the
fallback estimate with from_offer false. -/
def priceIngredient (snapshot : List StoreOffer) (now : Nat)
    (ing : ParsedIngredient) : Ingredient :=
  match snapshot.find? (ingMatches now ing.name) with
  | some o => ⟨ing.name, ing.quantity, o.new_price, true⟩
  | none => ⟨ing.name, ing.quantity, fallbackPrice, false⟩

/-- Modelled from the spec: priceRecipe(recipe, storeSnapshot) (spec section
4.6): fill ingredient prices, accumulate estimated_cost over the ingredient
list, and divide by servings floored at 1 for cost_per_serving. -/
def priceRecipe (p : ParsedRecipe) (snapshot : List StoreOffer) (now : Nat)
    (rid : Nat) (genAt : String) : Recipe :=
  let ings := p.ingredients.map (priceIngredient snapshot now)
  let cost := ings.foldl (fun acc i => acc + i.price) 0
  { id := rid
    name := p.name
    description := p.description
    prep_time := p.prep_time
    cook_time := p.cook_time
    servings := p.servings
    estimated_cost := cost
    cost_per_serving := some (cost / ((max p.servings 1 : Nat) : ℚ))
    difficulty := p.difficulty
    ingredients := ings
    instructions := p.instructions
    image_url := ""
    nutrition := p.nutrition
    tags := p.tags
    tips := p.tips
    generated_at := some genAt }

/-- The error taxonomy of generateRecipes (spec section 7). -/
inductive SynthesisError where
  | EmptySelection
  | ModelUnavailable
  | NoValidRecipes
deriving DecidableEq

/-- Modelled from the spec: the generation request embeds the resolved offers
names, prices and categories (spec section 4.5). -/
def buildRequest (resolved : List StoreOffer) : List (String × ℚ × String) :=
  resolved.map (fun o => (o.name, o.new_price, o.category))

/-- Modelled from the spec: resolving a selection of offer ids against the
store (spec section 4.5): ids no longer present or live are dropped, never an
error. -/
def resolveSelection (s : List StoreOffer) (now : Nat) (offerIds : List String) :
    List StoreOffer :=
  s.filter (fun o => offerIds.contains o.id && decide (now < o.valid_until))

/-- Modelled from the spec: synthesize(offerIds) (spec section 4.5).  The
external model is a parameter returning the free-form response text (none on
timeout or transport failure), and the defensive parser that extracts the
surviving well-formed recipes is a parameter as well.  The second component
counts how many times the external model was invoked. -/
def synthesize (s : List StoreOffer) (now : Nat) (offerIds : List String)
    (model : List (String × ℚ × String) → Option String)
    (parse : String → List ParsedRecipe) :
    Except SynthesisError (List Recipe) × Nat :=
  let resolved := resolveSelection s now offerIds
  if resolved.isEmpty then (Except.error SynthesisError.EmptySelection, 0)
  else
    match model (buildRequest resolved) with
    | none => (Except.error SynthesisError.ModelUnavailable, 1)
    | some text =>
        let recipes := (parse text).enum.map
          (fun pi => priceRecipe pi.2 s now pi.1 (toString now))
        if recipes.isEmpty then (Except.error SynthesisError.NoValidRecipes, 1)
        else (Except.ok recipes, 1)

/-! Sample data used by witnesses. -/

/-- A sample frontend offer (Dairy). -/
def oMilk : Offer :=
  ⟨"o1", "Milk", 8, 5, 38, "lidl", "Dairy", ""⟩

/-- A sample frontend offer (Bakery). -/
def oBread : Offer :=
  ⟨"o2", "Bread", 4, 3, 25, "lidl", "Bakery", ""⟩

/-- The store-level offer produced by normalizing rawMilk at time 0. -/
def sMilk : StoreOffer :=
  ⟨"lidl:Milk:0", "Milk", 8, 5, 38, "lidl", "Dairy", "", 604800⟩

/-- A store-level offer that expired at time 5. -/
def sExpired : StoreOffer :=
  ⟨"lidl:Eggs:0", "Eggs", 12, 9, 25, "lidl", "Dairy", "", 5⟩

/-- A sample raw record for the normalizer. -/
def rawMilk : RawRecord :=
  ⟨"Milk", 8, 5, "Dairy", "", none⟩

/-- A frontend state with one selected product. -/
def sampleState : FrontendState :=
  { data := none, loading := false, error := none, selectedRecipe := none,
    selectedProducts := ["o1"], customRecipes := [], generating := true,
    activeView := View.select, categoryFilter := "all" }

/-- A frontend state with no selected products. -/
def emptySelState : FrontendState :=
  { sampleState with selectedProducts := [] }

/-! Helper lemmas. -/

/-- Folding addition of a projection equals the accumulator plus the mapped sum. -/
theorem foldl_add_map {α : Type} (f : α → ℚ) (l : List α) (a : ℚ) :
    l.foldl (fun acc x => acc + f x) a = a + (l.map f).sum := by
  induction l generalizing a with
  | nil => simp
  | cons x xs ih => simp [ih, add_assoc]

/-- Membership tests agree with the contains Boolean. -/
theorem contains_eq_decide_mem (l : List String) (a : String) :
    l.contains a = decide (a ∈ l) := by
  by_cases h : a ∈ l <;> simp [h]

/-! Claim theorems: frontend pure helpers. -/

/-- C8: toggleProduct appends an absent id at the end, removes every
occurrence of a present id, and applying it twice with the same id returns a
selection with exactly the original contents (the same members). -/
theorem toggleProduct_spec (id : String) (l : List String) :
    (id ∉ l → toggleProduct id l = l ++ [id]) ∧
    (id ∈ l → toggleProduct id l = l.filter (fun p => p ≠ id)) ∧
    (∀ x, x ∈ toggleProduct id (toggleProduct id l) ↔ x ∈ l) := by
  refine ⟨fun h => by simp [toggleProduct, h], fun h => by simp [toggleProduct, h], ?_⟩
  intro x
  by_cases h : id ∈ l
  · have h1 : toggleProduct id l = l.filter (fun p => p ≠ id) := by
      simp [toggleProduct, h]
    have h2 : id ∉ l.filter (fun p => p ≠ id) := by simp
    have h3 : toggleProduct id (l.filter (fun p => p ≠ id)) =
        l.filter (fun p => p ≠ id) ++ [id] := by
      simp [toggleProduct, h2]
    rw [h1, h3]
    simp only [List.mem_append, List.mem_filter, List.mem_singleton,
      decide_eq_true_eq]
    constructor
    · rintro (⟨hx, _⟩ | rfl)
      · exact hx
      · exact h
    · intro hx
      by_cases hxi : x = id
      · exact Or.inr hxi
      · exact Or.inl ⟨hx, hxi⟩
  · have h1 : toggleProduct id l = l ++ [id] := by simp [toggleProduct, h]
    have h2 : id ∈ l ++ [id] := by simp
    have h3 : toggleProduct id (l ++ [id]) = (l ++ [id]).filter (fun p => p ≠ id) := by
      simp [toggleProduct, h2]
    rw [h1, h3]
    simp only [List.mem_filter, List.mem_append, List.mem_singleton,
      decide_eq_true_eq]
    constructor
    · rintro ⟨hx | rfl, hne⟩
      · exact hx
      · exact absurd rfl hne
    · intro hx
      exact ⟨Or.inl hx, fun e => h (e ▸ hx)⟩

/-- C8 witness: toggling a present id filters it out and toggling an absent id
appends it, at concrete selections. -/
theorem toggleProduct_spec_witness :
    toggleProduct "a" ["a", "b"] = ["a", "b"].filter (fun p => p ≠ "a") ∧
    toggleProduct "c" ["a", "b"] = ["a", "b"] ++ ["c"] :=
  ⟨(toggleProduct_spec "a" ["a", "b"]).2.1 (by decide),
   (toggleProduct_spec "c" ["a", "b"]).1 (by decide)⟩

/-- C9: selectedTotal counts the offers whose id is selected, totals their new
prices, sums their price drops as savings, and is all zeroes when the offer
list is absent. -/
theorem selectedTotal_spec (os : List Offer) (sel : List String) :
    selectedTotal none sel = ⟨0, 0, 0⟩ ∧
    (selectedTotal (some os) sel).count = os.countP (fun o => decide (o.id ∈ sel)) ∧
    (selectedTotal (some os) sel).total =
      ((os.filter (fun o => o.id ∈ sel)).map (fun o => o.new_price)).sum ∧
    (selectedTotal (some os) sel).savings =
      ((os.filter (fun o => o.id ∈ sel)).map (fun o => o.old_price - o.new_price)).sum := by
  have hf : (fun o : Offer => sel.contains o.id) =
      (fun o : Offer => decide (o.id ∈ sel)) := by
    funext o
    exact contains_eq_decide_mem sel o.id
  refine ⟨rfl, ?_, ?_, ?_⟩
  · simp [selectedTotal, hf, List.countP_eq_length_filter]
  · simp [selectedTotal, hf, foldl_add_map]
  · simp [selectedTotal, hf, foldl_add_map]

/-- C10: filteredOffers is the whole list for the filter value all, the
category-equal offers otherwise (an order-preserving sublist), and empty when
the offer list is absent. -/
theorem filteredOffers_spec (os : List Offer) (f : String) :
    filteredOffers none f = [] ∧
    filteredOffers (some os) "all" = os ∧
    (f ≠ "all" →
      filteredOffers (some os) f = os.filter (fun o => o.category = f) ∧
      (filteredOffers (some os) f).Sublist os) := by
  refine ⟨rfl, by simp [filteredOffers], fun h => ?_⟩
  have h1 : filteredOffers (some os) f = os.filter (fun o => o.category = f) := by
    simp [filteredOffers, h]
  exact ⟨h1, h1 ▸ List.filter_sublist os⟩

/-- C10 witness: filtering the two sample offers by the Dairy category keeps
exactly the Dairy one, as an order-preserving sublist. -/
theorem filteredOffers_spec_witness :
    filteredOffers (some [oMilk, oBread]) "Dairy" =
      [oMilk, oBread].filter (fun o => o.category = "Dairy") ∧
    (filteredOffers (some [oMilk, oBread]) "Dairy").Sublist [oMilk, oBread] :=
  (filteredOffers_spec [oMilk, oBread] "Dairy").2.2 (by decide)

/-- C3: with a non-empty selection, generateRecipes sends exactly the selected
ids as the request body; on success it sets customRecipes to the response
recipes field (empty when absent) and switches the view to results; on failure
customRecipes, activeView and the selection are unchanged. -/
theorem generateRecipes_nonempty (s : FrontendState) (recipes : Option (List Recipe))
    (h : s.selectedProducts ≠ []) :
    (generateRecipes s (ApiResult.success recipes)).2 = some s.selectedProducts ∧
    (generateRecipes s ApiResult.failure).2 = some s.selectedProducts ∧
    (generateRecipes s (ApiResult.success recipes)).1.customRecipes = recipes.getD [] ∧
    (generateRecipes s (ApiResult.success recipes)).1.activeView = View.results ∧
    (generateRecipes s ApiResult.failure).1.customRecipes = s.customRecipes ∧
    (generateRecipes s ApiResult.failure).1.activeView = s.activeView := by
  have hlen : ¬ s.selectedProducts.length = 0 := by
    simpa [List.length_eq_zero] using h
  simp [generateRecipes, hlen]

/-- C3 witness: the handler at a concrete one-product state sends that product
id, installs the returned recipes on success, and changes nothing relevant on
failure. -/
theorem generateRecipes_nonempty_witness :
    (generateRecipes sampleState (ApiResult.success (some []))).2 = some ["o1"] ∧
    (generateRecipes sampleState ApiResult.failure).2 = some ["o1"] ∧
    (generateRecipes sampleState (ApiResult.success (some []))).1.customRecipes = [] ∧
    (generateRecipes sampleState (ApiResult.success (some []))).1.activeView = View.results ∧
    (generateRecipes sampleState ApiResult.failure).1.customRecipes = [] ∧
    (generateRecipes sampleState ApiResult.failure).1.activeView = View.select :=
  generateRecipes_nonempty sampleState (some []) (by decide)

/-- The empty selection resolves to the empty offer set. -/
theorem resolveSelection_nil (s : List StoreOffer) (now : Nat) :
    resolveSelection s now [] = [] := by
  simp [resolveSelection]

/-- C1: with an empty selection the frontend handler performs no network
request and leaves the component state unchanged, and the spec-modelled
synthesizer returns SynthesisError EmptySelection with zero invocations of the
external model. -/
theorem emptySelection_no_call (s : FrontendState) (resp : ApiResult)
    (h : s.selectedProducts = []) (store : List StoreOffer) (now : Nat)
    (model : List (String × ℚ × String) → Option String)
    (parse : String → List ParsedRecipe) :
    generateRecipes s resp = (s, none) ∧
    synthesize store now [] model parse =
      (Except.error SynthesisError.EmptySelection, 0) := by
  constructor
  · simp [generateRecipes, h]
  · simp [synthesize, resolveSelection_nil]

/-- C1 witness: the empty-selection behaviour at a concrete state, store,
model stub and parser stub. -/
theorem emptySelection_no_call_witness :
    generateRecipes emptySelState ApiResult.failure = (emptySelState, none) ∧
    synthesize [sMilk] 0 [] (fun _ => none) (fun _ => []) =
      (Except.error SynthesisError.EmptySelection, 0) :=
  emptySelection_no_call emptySelState ApiResult.failure rfl [sMilk] 0
    (fun _ => none) (fun _ => [])

/-- C2 counterexample: page_backup.tsx is a frontend consumer of the dashboard
response and reads a recipes field that is not among the four claimed
dashboard fields. -/
theorem backup_reads_legacy_field :
    "recipes" ∈ pageBackupDashboardReads ∧ "recipes" ∉ pageDashboardFields := by
  decide

/-- C2 (amended): the dashboard payload type of the active page (page.tsx) has
exactly the fields offers, top_recipes, cheapest_recipes and stats, with stats
holding total_offers, total_potential_savings, categories and the optional
recipes_updated, and that page reads only these fields; the backup page reads
only fields of its own legacy payload shape. -/
theorem dashboard_shape_page :
    pageDashboardFields = ["offers", "top_recipes", "cheapest_recipes", "stats"] ∧
    pageStatsFields =
      ["total_offers", "total_potential_savings", "categories", "recipes_updated"] ∧
    pageDashboardReads.all (fun f => pageDashboardFields.contains f) = true ∧
    pageStatsReads.all (fun f => pageStatsFields.contains f) = true ∧
    pageBackupDashboardReads.all (fun f => pageBackupDashboardFields.contains f) = true := by
  decide

/-- C7 counterexample: the Offer interface of the active frontend page
(page.tsx lines 12-21) does not carry a valid_until field. -/
theorem page_offer_lacks_valid_until :
    "valid_until" ∉ pageOfferFields := by
  decide

/-- C7 (amended): store-level Offers (the backup page Offer interface and the
spec data model) carry valid_until; an offer whose valid_until is in the past
is absent from getOffers output and absent after sweepExpired runs, which
retains exactly the live offers. -/
theorem store_expiry (s : List StoreOffer) (now : Nat) (o : StoreOffer)
    (h : o.valid_until < now) :
    "valid_until" ∈ pageBackupOfferFields ∧
    o ∉ getOffers s now ∧
    o ∉ (sweepExpired s now).1 ∧
    (sweepExpired s now).1 = getOffers s now := by
  have hlt : ¬ now < o.valid_until := by omega
  refine ⟨by decide, ?_, ?_, rfl⟩
  · intro hmem
    rw [getOffers, List.mem_filter] at hmem
    exact hlt (of_decide_eq_true hmem.2)
  · intro hmem
    rw [sweepExpired, List.mem_filter] at hmem
    exact hlt (of_decide_eq_true hmem.2)

/-- C7 witness: the concrete offer expired at time 5 is gone from reads and
from the swept store at time 10. -/
theorem store_expiry_witness :
    "valid_until" ∈ pageBackupOfferFields ∧
    sExpired ∉ getOffers [sExpired, sMilk] 10 ∧
    sExpired ∉ (sweepExpired [sExpired, sMilk] 10).1 ∧
    (sweepExpired [sExpired, sMilk] 10).1 = getOffers [sExpired, sMilk] 10 :=
  store_expiry [sExpired, sMilk] 10 sExpired (by decide)

/-- Every offer the normalizer emits satisfies the section 3 invariant. -/
theorem normalize_invariant (source : String) (now : Nat) (raws : List RawRecord) :
    ∀ o ∈ normalize source now raws, offerInvariant o := by
  intro o ho
  rw [normalize, List.mem_filterMap] at ho
  obtain ⟨r, _, hr⟩ := ho
  rw [normalizeRecord] at hr
  by_cases hc : r.old_price ≤ 0 ∨ r.old_price < r.new_price
  · simp [hc] at hr
  · rw [if_neg hc] at hr
    push_neg at hc
    obtain ⟨-, hle⟩ := hc
    obtain rfl := Option.some_injective _ hr
    exact ⟨hle, rfl⟩

/-- Members of a single-offer upsert come from the store or are the new offer. -/
theorem mem_upsertOne (s : List StoreOffer) (o x : StoreOffer)
    (hx : x ∈ upsertOne s o) : x ∈ s ∨ x = o := by
  rw [upsertOne] at hx
  by_cases ha : s.any (fun y => y.id = o.id)
  · rw [if_pos ha, List.mem_map] at hx
    obtain ⟨y, hy, hyx⟩ := hx
    by_cases hid : y.id = o.id
    · simp [hid] at hyx
      exact Or.inr hyx.symm
    · simp [hid] at hyx
      exact Or.inl (hyx ▸ hy)
  · rw [if_neg ha, List.mem_append] at hx
    rcases hx with hx | hx
    · exact Or.inl hx
    · exact Or.inr (List.mem_singleton.mp hx)

/-- Members of an upsert come from the store or from the upserted batch. -/
theorem mem_upsert (offers : List StoreOffer) (s : List StoreOffer)
    (x : StoreOffer) (hx : x ∈ upsert s offers) : x ∈ s ∨ x ∈ offers := by
  induction offers generalizing s with
  | nil => exact Or.inl hx
  | cons o os ih =>
      rcases ih (upsertOne s o) hx with h | h
      · rcases mem_upsertOne s o x h with h | h
        · exact Or.inl h
        · exact Or.inr (h ▸ List.mem_cons_self o os)
      · exact Or.inr (List.mem_cons_of_mem o h)

/-- C4: every offer in any store reachable through refresh cycles and expiry
sweeps has new_price at most old_price, and its discount_percentage equals the
rounded percentage recomputed from the two prices, since the normalizer is the
only producer of discount values. -/
theorem store_offer_invariant (s : List StoreOffer) (hs : ReachableStore s) :
    ∀ o ∈ s, offerInvariant o := by
  induction hs with
  | empty => intro o ho; cases ho
  | refresh s source now raws _ ih =>
      intro o ho
      rcases mem_upsert _ s o ho with h | h
      · exact ih o h
      · exact normalize_invariant source now raws o h
  | sweep s now _ ih =>
      intro o ho
      exact ih o ((List.filter_sublist s).mem ho)

/-- Normalizing the sample raw record at time 0 yields exactly sMilk, with the
discount percentage recomputed to the rounded 37.5, namely 38. -/
theorem normalizeRecord_rawMilk : normalizeRecord "lidl" 0 rawMilk = some sMilk := by
  rw [normalizeRecord, if_neg (by norm_num [rawMilk])]
  simp [rawMilk, sMilk, deriveId, defaultValidUntil, assignCategory]
  norm_num [round_eq]
  decide

/-- The one-record refresh batch normalizes to the single offer sMilk. -/
theorem normalize_rawMilk : normalize "lidl" 0 [rawMilk] = [sMilk] := by
  simp [normalize, normalizeRecord_rawMilk]

/-- C4 witness: the offer obtained by normalizing and upserting the sample raw
record into the empty store satisfies the invariant: 5 at most 8, and the
discount is the rounded 37.5 percent, namely 38. -/
theorem store_offer_invariant_witness :
    sMilk.new_price ≤ sMilk.old_price ∧
    sMilk.discount_percentage =
      round ((sMilk.old_price - sMilk.new_price) / sMilk.old_price * 100) :=
  store_offer_invariant (upsert [] (normalize "lidl" 0 [rawMilk]))
    (ReachableStore.refresh [] "lidl" 0 [rawMilk] ReachableStore.empty)
    sMilk (by rw [normalize_rawMilk]; exact List.mem_singleton.mpr rfl)

/-- C5: every recipe the spec-modelled cost matcher returns has estimated_cost
equal to the sum of its ingredient prices, and cost_per_serving equal to
estimated_cost divided by servings floored at 1. -/
theorem priceRecipe_cost_reconciliation (p : ParsedRecipe)
    (snapshot : List StoreOffer) (now rid : Nat) (genAt : String) :
    (priceRecipe p snapshot now rid genAt).estimated_cost =
      ((priceRecipe p snapshot now rid genAt).ingredients.map
        (fun i => i.price)).sum ∧
    (priceRecipe p snapshot now rid genAt).cost_per_serving =
      some ((priceRecipe p snapshot now rid genAt).estimated_cost /
        ((max (priceRecipe p snapshot now rid genAt).servings 1 : Nat) : ℚ)) := by
  constructor
  · simp [priceRecipe, foldl_add_map]
  · rfl

/-- C6: refresh is single-flight: from an idle scheduler the first call starts
a cycle and reports triggered true, a second call issued while that cycle is
in progress changes nothing and reports triggered false, exactly one cycle was
started, and any call made while a cycle is in progress is a no-op reporting
triggered false. -/
theorem refresh_single_flight (s : SchedulerState) (h : s.refreshing = false) :
    (refresh s).2 = true ∧
    (refresh (refresh s).1).2 = false ∧
    (refresh (refresh s).1).1 = (refresh s).1 ∧
    (refresh (refresh s).1).1.startedCycles = s.startedCycles + 1 ∧
    ∀ t : SchedulerState, t.refreshing = true → refresh t = (t, false) := by
  refine ⟨?_, ?_, ?_, ?_, fun t ht => by simp [refresh, ht]⟩ <;>
    simp [refresh, h]

/-- C6 witness: the single-flight behaviour from the concrete idle scheduler
state with zero started cycles. -/
theorem refresh_single_flight_witness :
    (refresh ⟨false, 0⟩).2 = true ∧
    (refresh (refresh ⟨false, 0⟩).1).2 = false ∧
    (refresh (refresh ⟨false, 0⟩).1).1 = (refresh ⟨false, 0⟩).1 ∧
    (refresh (refresh ⟨false, 0⟩).1).1.startedCycles = 0 + 1 ∧
    ∀ t : SchedulerState, t.refreshing = true → refresh t = (t, false) :=
  refresh_single_flight ⟨false, 0⟩ rfl

end Chef
